import Mathlib

/-!
Shallow embedding of `src/app.py` (the "DogDog Go" breed lookup app).

The core of the app is three helpers:
* `load_breeds` (app.py:81-130): fetch the breed catalog, normalise it into a
  fixed ten-column table;
* `find_matches` (app.py:133-141): case-insensitive name search over the table;
* `parse_range` (app.py:144-157): display formatter for "20 - 30"-style fields.

Python/pandas values are modelled by `Json` (the upstream payload) and `PyVal`
(cell values; `PyVal.none` stands for both Python `None` and pandas `NaN`).
A pandas `DataFrame` is a column list plus rows of key/value pairs; a key
absent from a row reads as the missing value, as a `NaN` cell does.
Fallible pandas operations (column selection, `.str.contains` with its
default `regex=True`) return `Except`.
-/

set_option autoImplicit false

namespace DogApp

/-- JSON values, as returned by `resp.json()` at app.py:91.  An upstream
record is a JSON object, i.e. a `List (String × Json)`. -/
inductive Json where
  | null : Json
  | str : String → Json
  | num : Int → Json
  | bool : Bool → Json
  | arr : List Json → Json
  | obj : List (String × Json) → Json

/-- A cell value of the normalised table.  `PyVal.none` models both Python
`None` and pandas `NaN` (a single missing-value sentinel); `listv` keeps a
raw JSON array as an opaque object cell, as `pd.json_normalize` does. -/
inductive PyVal where
  | none : PyVal
  | str : String → PyVal
  | int : Int → PyVal
  | bool : Bool → PyVal
  | listv : List Json → PyVal

/-- One row of a `DataFrame`: an association list from column name to cell. -/
abbrev Row := List (String × PyVal)

/-- A pandas `DataFrame`: an ordered list of column names and an ordered list
of rows.  A column name absent from a row denotes a missing (`NaN`) cell. -/
structure DataFrame where
  columns : List String
  rows : List Row

/-- Read the cell of row `r` at column `c`; an absent key is a missing cell. -/
def getCell (r : Row) (c : String) : PyVal :=
  match r.lookup c with
  | some v => v
  | Option.none => PyVal.none

/-- Python truthiness (`not text_val` at app.py:150 and `if row[...]` checks):
`None`, `""`, `0`, `False` and `[]` are falsy. -/
def isFalsy : PyVal → Bool
  | PyVal.none => true
  | PyVal.str s => s == ""
  | PyVal.int n => n == 0
  | PyVal.bool b => !b
  | PyVal.listv xs => xs.isEmpty

/-- Elementwise pandas `==` between a cell and a Python value, as in
`results_df["Name"] == selected_name` (app.py:196): equal same-type scalars
compare `True`; a missing cell (`NaN`) compares `False` against everything. -/
def pvEq : PyVal → PyVal → Bool
  | PyVal.str a, PyVal.str b => a == b
  | PyVal.int a, PyVal.int b => a == b
  | PyVal.bool a, PyVal.bool b => a == b
  | _, _ => false

/-! ### The formatter `parse_range` (app.py:144-157) -/

/-- Whitespace stripped by Python's `str.strip()` (ASCII classes; the exotic
Unicode space characters are irrelevant to this data and are omitted). -/
def isPySpace (c : Char) : Bool :=
  c == ' ' || c == '\t' || c == '\n' || c == '\r' || c == '\x0b' || c == '\x0c'

/-- Python `text_val.split("-")` on the character list: splits at every `'-'`,
never returns an empty list (`"".split("-") = [""]`). -/
def pySplitDash : List Char → List (List Char)
  | [] => [[]]
  | c :: cs =>
    if c = '-' then
      [] :: pySplitDash cs
    else
      match pySplitDash cs with
      | [] => [[c]]
      | p :: ps => (c :: p) :: ps

/-- Python `str.strip()` on a character list. -/
def pyStrip (l : List Char) : List Char :=
  ((l.dropWhile isPySpace).reverse.dropWhile isPySpace).reverse

/-- Model of `parse_range` (app.py:144-157): if the input is falsy or not a string,
return the sentinel `"—"`; otherwise take `text_val.split("-")[0].strip()`
and return it if non-empty, the sentinel otherwise. -/
def parse_range (text_val : PyVal) : String :=
  if isFalsy text_val then "—"
  else
    match text_val with
    | PyVal.str s =>
      let parts := pySplitDash s.toList
      let first := pyStrip (parts.headD [])
      if first.isEmpty then "—" else String.mk first
    | _ => "—"

/-! ### The search filter `find_matches` (app.py:133-141)

`df["Name"].str.contains(query_text, case=False, na=False)` uses pandas'
default `regex=True`: the query is compiled as a regular expression and
matched with `re.IGNORECASE` via `re.search`.  We model the regex fragment
the catalog data and the claims exercise — literal characters and the `.`
wildcard; a query holding any other regex metacharacter falls outside the
model (several of them, e.g. `"("`, raise `re.error` in the source), and
`find_matches` reports it as an `Except.error`. -/

/-- Regex metacharacters of Python's `re` syntax. -/
def isMeta (c : Char) : Bool :=
  c == '.' || c == '^' || c == '$' || c == '*' || c == '+' || c == '?' ||
  c == '{' || c == '}' || c == '[' || c == ']' || c == '\\' || c == '|' ||
  c == '(' || c == ')'

/-- A token of the modelled regex fragment: a literal character or `.`. -/
inductive RTok where
  | lit : Char → RTok
  | dot : RTok

/-- Compile a pattern made of literals and `.`; `none` on any other
metacharacter (outside the modelled fragment). -/
def parsePatL : List Char → Option (List RTok)
  | [] => some []
  | c :: cs =>
    if c = '.' then (parsePatL cs).map (fun ts => RTok.dot :: ts)
    else if isMeta c then Option.none
    else (parsePatL cs).map (fun ts => RTok.lit c :: ts)

/-- Does one token match one character?  Literals compare case-insensitively
(`re.IGNORECASE`); `.` matches anything but a newline. -/
def tokMatches : RTok → Char → Bool
  | RTok.lit c, d => c.toLower == d.toLower
  | RTok.dot, d => !(d == '\n')

/-- Do the tokens match a prefix of the character list? -/
def matchHere : List RTok → List Char → Bool
  | [], _ => true
  | _ :: _, [] => false
  | t :: ts, c :: cs => tokMatches t c && matchHere ts cs

/-- Python `re.search`: do the tokens match starting at some position? -/
def searchFrom (toks : List RTok) : List Char → Bool
  | [] => matchHere toks []
  | c :: cs => matchHere toks (c :: cs) || searchFrom toks cs

/-- The mask predicate of app.py:140 for one row: a string `Name` cell is
searched with the compiled pattern; a missing or non-string `Name` yields
`NaN`, which `na=False` turns into `False`. -/
def nameMatches (r : Row) (toks : List RTok) : Bool :=
  match getCell r "Name" with
  | PyVal.str s => searchFrom toks s.toList
  | _ => false

/-- Model of `find_matches` (app.py:133-141).  An empty query short-circuits to the
empty `pd.DataFrame()` (zero rows *and* zero columns).  Otherwise
`df["Name"]` raises a `KeyError` when the column is absent; then the query
is compiled (`Except.error` outside the modelled regex fragment) and the
matching rows are kept in order (`reset_index` only renumbers). -/
def find_matches (df : DataFrame) (query_text : String) : Except String DataFrame :=
  if query_text = "" then Except.ok { columns := [], rows := [] }
  else if "Name" ∈ df.columns then
    match parsePatL query_text.toList with
    | some toks =>
      Except.ok { columns := df.columns
                  rows := df.rows.filter (fun r => nameMatches r toks) }
    | Option.none => Except.error "re.error or regex feature outside the model"
  else Except.error "KeyError: Name"

/-! ### Spec-side definitions (from the spec's words, for refinement claims) -/

/-- Is `pat` a prefix of `hay` (plain character equality)? -/
def hasPrefixL : List Char → List Char → Bool
  | [], _ => true
  | _ :: _, [] => false
  | a :: as, b :: bs => a == b && hasPrefixL as bs

/-- Does `hay` contain `pat` as a contiguous sublist? -/
def hasSubstrL (pat : List Char) : List Char → Bool
  | [] => hasPrefixL pat []
  | c :: cs => hasPrefixL pat (c :: cs) || hasSubstrL pat cs

/-- Case-insensitive substring containment, the spec's "Name (case-folded)
contains q (case-folded) as a substring". -/
def containsCI (s q : String) : Bool :=
  hasSubstrL (q.toList.map Char.toLower) (s.toList.map Char.toLower)

/-- The spec's row predicate: the `Name` cell is a string containing the
query case-insensitively; missing/non-string names never match. -/
def specNameContains (r : Row) (q : String) : Bool :=
  match getCell r "Name" with
  | PyVal.str s => containsCI s q
  | _ => false

/-- The spec's leading segment: everything before the first `'-'`. -/
def leadingSegment (s : String) : List Char :=
  s.toList.takeWhile (fun c => !(c == '-'))

/-! ### The catalog loader `load_breeds` (app.py:81-130) -/

mutual

/-- Flatten one JSON object entry the way `pd.json_normalize` (app.py:94)
does: a nested object contributes its fields under the dotted path
`pre ++ k ++ "."` (so `{"weight": {"metric": v}}` yields the column
`weight.metric`); every other value becomes one cell under `pre ++ k`
(arrays are kept whole, as `json_normalize` leaves lists alone). -/
def flattenEntry (pre k : String) : Json → List (String × PyVal)
  | Json.obj fs => flattenFields (pre ++ k ++ ".") fs
  | Json.null => [(pre ++ k, PyVal.none)]
  | Json.str s => [(pre ++ k, PyVal.str s)]
  | Json.num n => [(pre ++ k, PyVal.int n)]
  | Json.bool b => [(pre ++ k, PyVal.bool b)]
  | Json.arr xs => [(pre ++ k, PyVal.listv xs)]

/-- Flatten one JSON object (one upstream record) into a flat row. -/
def flattenFields (pre : String) : List (String × Json) → List (String × PyVal)
  | [] => []
  | (k, v) :: rest => flattenEntry pre k v ++ flattenFields pre rest

end

/-- Column names in order of first appearance (the `seen` accumulator holds
the names already emitted). -/
def dedupFirst (seen : List String) : List String → List String
  | [] => []
  | c :: cs =>
    if c ∈ seen then dedupFirst seen cs
    else c :: dedupFirst (c :: seen) cs

/-- Model of `pd.json_normalize(data)` (app.py:94) on a list of JSON objects: the
columns are the flattened keys in order of first appearance; a row simply
lacks the keys its record did not supply (those cells read as `NaN`). -/
def json_normalize (data : List (List (String × Json))) : DataFrame :=
  { columns := dedupFirst []
      ((data.map (flattenFields "")).flatMap (fun r => r.map Prod.fst))
    rows := data.map (flattenFields "") }

/-- The kept upstream columns, in the order of app.py:97-108. -/
def keep_cols : List String :=
  ["name", "bred_for", "breed_group", "origin", "life_span", "temperament",
   "weight.metric", "height.metric", "image.url", "id"]

/-- The rename mapping of app.py:115-128 (old name, new name). -/
def renameMap : List (String × String) :=
  [("name", "Name"), ("bred_for", "BredFor"), ("breed_group", "Group"),
   ("origin", "Origin"), ("life_span", "LifeSpan"),
   ("temperament", "Temperament"), ("weight.metric", "WeightKg"),
   ("height.metric", "HeightCm"), ("image.url", "ImageURL"),
   ("id", "BreedID")]

/-- The ten columns of the normalised table, in order. -/
def breed_columns : List String :=
  ["Name", "BredFor", "Group", "Origin", "LifeSpan", "Temperament",
   "WeightKg", "HeightCm", "ImageURL", "BreedID"]

/-- Model of `df[col] = None` guarded by `if col not in df.columns` (app.py:111-113):
a column absent from the frame is appended with every cell `None`. -/
def addMissing (df : DataFrame) (col : String) : DataFrame :=
  if col ∈ df.columns then df
  else { columns := df.columns ++ [col]
         rows := df.rows.map (fun r => r ++ [(col, PyVal.none)]) }

/-- The `for col in keep_cols` loop of app.py:111-113. -/
def addAllMissing (df : DataFrame) : DataFrame :=
  keep_cols.foldl addMissing df

/-- Model of the selection and rename of app.py:115-128: selecting a
column absent from the frame raises a `KeyError`; otherwise the frame is
projected onto the renamed ten columns, keeping every row. -/
def selectRename (df : DataFrame) : Except String DataFrame :=
  if ∀ c ∈ keep_cols, c ∈ df.columns then
    Except.ok { columns := renameMap.map Prod.snd
                rows := df.rows.map (fun r =>
                  renameMap.map (fun p => (p.2, getCell r p.1))) }
  else Except.error "KeyError"

/-- The pure normalisation pipeline of `load_breeds` (app.py:94-130), from
the parsed JSON payload to the ten-column table. -/
def load_breeds_pure (data : List (List (String × Json))) : Except String DataFrame :=
  selectRename (addAllMissing (json_normalize data))

/-! ### The network and cache layer of `load_breeds` (app.py:81-91)

`requests.get(url, timeout=10)` and `resp.raise_for_status()` are modelled
by an oracle `FetchResult` describing what the network did, and
`st.cache_data` by an explicit cache state threaded through calls. -/

/-- The fixed endpoint of app.py:88. -/
def BREEDS_URL : String := "https://api.thedogapi.com/v1/breeds"

/-- The single outbound request of app.py:89: its URL and its timeout. -/
structure FetchCall where
  url : String
  timeout : Nat

/-- The request `load_breeds` issues (`requests.get(url, timeout=10)`). -/
def breedsFetchCall : FetchCall :=
  { url := BREEDS_URL, timeout := 10 }

/-- An HTTP response: a status code and the parsed JSON body. -/
structure HttpResponse where
  status : Nat
  body : List (List (String × Json))

/-- What the network did for one attempt: timed out, or answered. -/
inductive FetchResult where
  | timeout : FetchResult
  | response : HttpResponse → FetchResult

/-- Model of `resp.raise_for_status()` (app.py:90): raises `HTTPError` on a 4xx or
5xx status, otherwise does nothing. -/
def raise_for_status (r : HttpResponse) : Except String Unit :=
  if 400 ≤ r.status ∧ r.status < 600 then Except.error "HTTPError"
  else Except.ok ()

/-- One un-cached run of `load_breeds()` (app.py:88-130) against a network
oracle: a timeout propagates, `raise_for_status` propagates, otherwise the
body is normalised. -/
def load_breeds_net (res : FetchResult) : Except String DataFrame :=
  match res with
  | FetchResult.timeout => Except.error "Timeout"
  | FetchResult.response r =>
    match raise_for_status r with
    | Except.error e => Except.error e
    | Except.ok _ => load_breeds_pure r.body

/-- Modelled from the spec: the `st.cache_data` memoization wrapper of
app.py:81 (library code, not in `src/`) — "the result is memoized per
process", and on failure "no cached table is populated, and a subsequent
call retries the fetch".  One call maps the cache state and the network
oracle to (new cache state, whether an outbound fetch happened, result). -/
def load_breeds_cached (cache : Option DataFrame) (res : FetchResult) :
    Option DataFrame × Bool × Except String DataFrame :=
  match cache with
  | some t => (some t, false, Except.ok t)
  | Option.none =>
    match load_breeds_net res with
    | Except.ok t => (some t, true, Except.ok t)
    | Except.error e => (Option.none, true, Except.error e)

/-! ### The detail view row (app.py:188-196) -/

/-- Model of `results_df[results_df["Name"] == selected_name].iloc[0]` (app.py:196):
the first row of the result table whose `Name` equals the selected name
(`Option.none` when none does — `iloc[0]` would raise there). -/
def detail_row (results : DataFrame) (selected_name : String) : Option Row :=
  (results.rows.filter (fun r => pvEq (getCell r "Name") (PyVal.str selected_name))).head?

/-! ### Example tables used by witnesses and counterexamples -/

/-- A one-row table whose only record is named `"ab"`. -/
def exDF1 : DataFrame :=
  { columns := ["Name"], rows := [[("Name", PyVal.str "ab")]] }

/-- A two-row table with records named `"ab"` and `"cb"`. -/
def exDF2 : DataFrame :=
  { columns := ["Name"],
    rows := [[("Name", PyVal.str "ab")], [("Name", PyVal.str "cb")]] }

/-! ### Predicates about the Name field (for the data-model invariant) -/

/-- Is a cell a non-empty string? -/
def goodNameVal : PyVal → Bool
  | PyVal.str s => !(s == "")
  | _ => false

/-- Does a normalised (renamed) row carry a non-empty string `Name`? -/
def nameIsNonemptyStr (r : Row) : Bool :=
  goodNameVal (getCell r "Name")

/-- Does a flat (pre-rename) row carry a non-empty string `name`? -/
def nameGoodRow (r : Row) : Bool :=
  goodNameVal (getCell r "name")

/-- Does an upstream record carry a top-level `name` key whose (first)
value is a non-empty JSON string? -/
def recNameGood (rec : List (String × Json)) : Bool :=
  match rec.lookup "name" with
  | some (Json.str s) => !(s == "")
  | _ => false

/-! ### Helper lemmas about the formatter -/

/-- Python's `split` never returns an empty list, so `parts[0]` is safe. -/
theorem pySplitDash_ne_nil (l : List Char) : pySplitDash l ≠ [] := by
  induction l with
  | nil => simp [pySplitDash]
  | cons c cs ih =>
    simp only [pySplitDash]
    split
    · simp
    · split
      · simp
      · simp

/-- The first piece of `text.split("-")` is the segment before the first
`'-'` (the whole string when there is none). -/
theorem headD_pySplitDash (l : List Char) :
    (pySplitDash l).headD [] = l.takeWhile (fun c => !(c == '-')) := by
  induction l with
  | nil => rfl
  | cons c cs ih =>
    simp only [pySplitDash, List.takeWhile]
    by_cases hc : c = '-'
    · subst hc
      simp
    · rw [if_neg hc]
      have hne := pySplitDash_ne_nil cs
      cases hsp : pySplitDash cs with
      | nil => exact absurd hsp hne
      | cons p ps =>
        rw [hsp] at ih
        simp only [List.headD] at ih ⊢
        have hcb : (c == '-') = false := by simp [hc]
        simp [hcb, ih]

/-! ### Claim C4 — the formatter -/

/-- Claim C4: `parse_range` returns the sentinel `"—"` on missing, empty or
non-string input; on a string it returns the stripped segment before the
first `'-'` when that segment is non-empty, and the sentinel otherwise
(so `"20 - 30" ↦ "20"` and `"15" ↦ "15"`). -/
theorem parse_range_formatter_spec :
    parse_range PyVal.none = "—" ∧
    parse_range (PyVal.str "") = "—" ∧
    parse_range (PyVal.int 42) = "—" ∧
    parse_range (PyVal.str "20 - 30") = "20" ∧
    parse_range (PyVal.str "15") = "15" ∧
    ∀ s : String,
      parse_range (PyVal.str s) =
        (if (pyStrip (leadingSegment s)).isEmpty then "—"
         else String.mk (pyStrip (leadingSegment s))) := by
  refine ⟨rfl, rfl, rfl, rfl, rfl, ?_⟩
  intro s
  by_cases hs : s = ""
  · subst hs
    rfl
  · have hsb : (s == "") = false := by simp [hs]
    simp only [parse_range, isFalsy, hsb, Bool.false_eq_true, if_false,
      headD_pySplitDash, leadingSegment, String.toList]

/-! ### Claims C3, C10, C6 — the search filter's shape -/

/-- Claim C3: for every table, the empty query returns a table with zero
rows (the code short-circuits to `pd.DataFrame()` before touching `df`). -/
theorem find_matches_empty_query_zero_rows (df : DataFrame) :
    (find_matches df "").map (fun t => t.rows.length) = Except.ok 0 := rfl

/-- Claim C10: the result schema differs by branch — the empty query yields
the zero-row, zero-column `pd.DataFrame()`, while any non-empty query that
returns at all keeps every column of the input table (even with no
matching rows). -/
theorem find_matches_schema_by_branch (df : DataFrame) :
    find_matches df "" = Except.ok { columns := [], rows := [] } ∧
    ∀ (q : String) (res : DataFrame), q ≠ "" → find_matches df q = Except.ok res →
      res.columns = df.columns := by
  constructor
  · rfl
  · intro q res hq h
    simp only [find_matches, if_neg hq] at h
    by_cases hN : "Name" ∈ df.columns
    · rw [if_pos hN] at h
      cases hp : parsePatL q.toList with
      | some toks =>
        rw [hp] at h
        injection h with h'
        rw [← h']
      | none =>
        rw [hp] at h
        exact absurd h (by simp)
    · rw [if_neg hN] at h
      exact absurd h (by simp)

/-- Claim C10 witness: on the one-column table `exDF1`, the no-match query
`"zz"` still returns all columns of the input. -/
theorem find_matches_schema_by_branch_witness :
    ({ columns := ["Name"], rows := [] } : DataFrame).columns = exDF1.columns :=
  (find_matches_schema_by_branch exDF1).2 "zz"
    { columns := ["Name"], rows := [] } (by decide) rfl

/-- Claim C6: the filter is stable — the rows of any result of
`find_matches` are a sublist (same relative order) of the input rows. -/
theorem find_matches_order_preserved (df : DataFrame) (q : String) (res : DataFrame)
    (h : find_matches df q = Except.ok res) : res.rows.Sublist df.rows := by
  by_cases hq : q = ""
  · subst hq
    simp only [find_matches, if_pos rfl] at h
    injection h with h'
    rw [← h']
    exact List.nil_sublist _
  · simp only [find_matches, if_neg hq] at h
    by_cases hN : "Name" ∈ df.columns
    · rw [if_pos hN] at h
      cases hp : parsePatL q.toList with
      | some toks =>
        rw [hp] at h
        injection h with h'
        rw [← h']
        exact List.filter_sublist _
      | none =>
        rw [hp] at h
        exact absurd h (by simp)
    · rw [if_neg hN] at h
      exact absurd h (by simp)

/-- Claim C6 witness: querying `"a"` on the two-row table `exDF2` keeps
exactly its first row, a sublist of the input rows. -/
theorem find_matches_order_preserved_witness :
    ([[("Name", PyVal.str "ab")]] : List Row).Sublist exDF2.rows :=
  find_matches_order_preserved exDF2 "a"
    { columns := ["Name"], rows := [[("Name", PyVal.str "ab")]] } rfl

/-! ### Claim C9 — the detail view tie-break -/

/-- Claim C9: the detail view is built from the first occurrence of the
selected name in the result table: filtering on the name and taking the
first row is finding the first matching row. -/
theorem detail_row_first_occurrence (results : DataFrame) (selected_name : String) :
    detail_row results selected_name =
      results.rows.find? (fun r => pvEq (getCell r "Name") (PyVal.str selected_name)) :=
  List.filter_head? _ _

/-! ### Claim C5 — failure propagation of the loader -/

/-- Claim C5: the single request is issued with timeout 10; a timeout or a
non-success (4xx/5xx) response makes `load_breeds` fail with an error, the
failure leaves the cache unpopulated, and the next call fetches again
instead of serving a stale or partial table. -/
theorem load_breeds_failure_propagation :
    breedsFetchCall.timeout = 10 ∧
    load_breeds_net FetchResult.timeout = Except.error "Timeout" ∧
    (∀ r : HttpResponse, 400 ≤ r.status → r.status < 600 →
      load_breeds_net (FetchResult.response r) = Except.error "HTTPError") ∧
    (∀ (res : FetchResult) (e : String), load_breeds_net res = Except.error e →
      load_breeds_cached Option.none res = (Option.none, true, Except.error e)) ∧
    (∀ (res res' : FetchResult) (e : String), load_breeds_net res = Except.error e →
      (load_breeds_cached Option.none res').2.1 = true) := by
  refine ⟨rfl, rfl, ?_, ?_, ?_⟩
  · intro r h1 h2
    simp [load_breeds_net, raise_for_status, h1, h2]
  · intro res e h
    simp [load_breeds_cached, h]
  · intro res res' e h
    cases h' : load_breeds_net res' <;> simp [load_breeds_cached, h']

/-- Claim C5 witness: a 500 response leaves the cache empty, counts as one
outbound fetch, and surfaces the HTTP error to the caller. -/
theorem load_breeds_failure_propagation_witness :
    load_breeds_cached Option.none (FetchResult.response { status := 500, body := [] }) =
      (Option.none, true, Except.error "HTTPError") :=
  load_breeds_failure_propagation.2.2.2.1
    (FetchResult.response { status := 500, body := [] }) "HTTPError" rfl

/-! ### Claim C1 — the filter's match predicate

The claim says substring containment; `str.contains` with its default
`regex=True` compiles the query as a regular expression, so a query holding
a metacharacter can match names that do not contain it (`"."` matches every
name).  For metacharacter-free queries the two coincide. -/

/-- A metacharacter-free query compiles to its list of literal tokens. -/
theorem parsePatL_of_no_meta :
    ∀ l : List Char, l.all (fun c => !(isMeta c)) = true →
      parsePatL l = some (l.map RTok.lit) := by
  intro l h
  induction l with
  | nil => rfl
  | cons c cs ih =>
    rw [List.all_cons, Bool.and_eq_true, Bool.not_eq_true'] at h
    obtain ⟨h1, h2⟩ := h
    have hdot : ¬ c = '.' := by
      intro hc
      subst hc
      simp [isMeta] at h1
    simp [parsePatL, hdot, h1, ih h2]

/-- Matching literal tokens at the head is case-folded prefix equality. -/
theorem matchHere_lit :
    ∀ (ql sl : List Char),
      matchHere (ql.map RTok.lit) sl =
        hasPrefixL (ql.map Char.toLower) (sl.map Char.toLower) := by
  intro ql
  induction ql with
  | nil => intro sl; rfl
  | cons c cs ih =>
    intro sl
    cases sl with
    | nil => rfl
    | cons d ds => simp [matchHere, hasPrefixL, tokMatches, ih]

/-- Searching literal tokens is case-folded substring containment. -/
theorem searchFrom_lit :
    ∀ (ql sl : List Char),
      searchFrom (ql.map RTok.lit) sl =
        hasSubstrL (ql.map Char.toLower) (sl.map Char.toLower) := by
  intro ql sl
  induction sl with
  | nil => exact matchHere_lit ql []
  | cons c cs ih => simp [searchFrom, hasSubstrL, matchHere_lit, ih]

/-- On literal tokens, the code's mask predicate is the spec's case-folded
substring predicate. -/
theorem nameMatches_lit (r : Row) (q : String) :
    nameMatches r (q.toList.map RTok.lit) = specNameContains r q := by
  unfold nameMatches specNameContains containsCI
  cases getCell r "Name" <;> simp [searchFrom_lit]

/-- Claim C1 counterexample: on the table `exDF1` (one record named
`"ab"`), the query `"."` returns that record although `"ab"` does not
contain `"."` as a substring — the code matches it as a regex wildcard. -/
theorem find_matches_regex_counterexample :
    find_matches exDF1 "." =
      Except.ok { columns := ["Name"], rows := [[("Name", PyVal.str "ab")]] } ∧
    specNameContains [("Name", PyVal.str "ab")] "." = false :=
  ⟨rfl, rfl⟩

/-- Claim C1 (amended): for a table with a `Name` column and a non-empty
query free of regex metacharacters, `find_matches` returns exactly the
records whose `Name` contains the query case-insensitively, in order;
missing or non-string names never match and never raise. -/
theorem find_matches_literal_query_substring (df : DataFrame) (q : String)
    (hq : q ≠ "") (hmeta : q.toList.all (fun c => !(isMeta c)) = true)
    (hN : "Name" ∈ df.columns) :
    find_matches df q =
      Except.ok { columns := df.columns
                  rows := df.rows.filter (fun r => specNameContains r q) } := by
  simp only [find_matches, if_neg hq, if_pos hN, parsePatL_of_no_meta q.toList hmeta]
  have hpred : (fun r => nameMatches r (q.toList.map RTok.lit)) =
      (fun r => specNameContains r q) :=
    funext fun r => nameMatches_lit r q
  rw [hpred]

/-- Claim C1 witness: the metacharacter-free query `"a"` on `exDF2` keeps
exactly the record whose name contains `"a"`. -/
theorem find_matches_literal_query_substring_witness :
    find_matches exDF2 "a" =
      Except.ok { columns := ["Name"], rows := [[("Name", PyVal.str "ab")]] } := by
  rw [find_matches_literal_query_substring exDF2 "a" (by decide) (by decide) (by decide)]
  rfl

/-! ### Claim C2 — schema stability of the loader -/

/-- The fill step `addMissing` never removes a column. -/
theorem mem_addMissing_of_mem {c : String} {df : DataFrame} (c' : String)
    (h : c ∈ df.columns) : c ∈ (addMissing df c').columns := by
  unfold addMissing
  split
  · exact h
  · simp [h]

/-- The fill step `addMissing df c` guarantees the column `c`. -/
theorem mem_addMissing_self (df : DataFrame) (c : String) :
    c ∈ (addMissing df c).columns := by
  unfold addMissing
  split
  · assumption
  · simp

/-- The fill loop never removes a column. -/
theorem mem_foldl_addMissing_of_mem :
    ∀ (cols : List String) (df : DataFrame) (c : String),
      c ∈ df.columns → c ∈ (cols.foldl addMissing df).columns := by
  intro cols
  induction cols with
  | nil => intro df c h; simpa using h
  | cons c0 cs ih =>
    intro df c h
    exact ih _ _ (mem_addMissing_of_mem c0 h)

/-- After the fill loop of app.py:111-113, every requested column exists. -/
theorem mem_foldl_addMissing :
    ∀ (cols : List String) (df : DataFrame) (c : String),
      c ∈ cols → c ∈ (cols.foldl addMissing df).columns := by
  intro cols
  induction cols with
  | nil => intro df c h; cases h
  | cons c0 cs ih =>
    intro df c h
    rcases List.mem_cons.mp h with rfl | h'
    · exact mem_foldl_addMissing_of_mem cs _ c (mem_addMissing_self df c)
    · exact ih _ _ h'

/-- Every kept upstream column exists after `addAllMissing`. -/
theorem mem_addAllMissing (df : DataFrame) (c : String) (h : c ∈ keep_cols) :
    c ∈ (addAllMissing df).columns :=
  mem_foldl_addMissing keep_cols df c h

/-- When every kept column exists, `df[keep_cols].rename(...)` succeeds and
produces the renamed ten-column projection. -/
theorem selectRename_ok (df : DataFrame) (h : ∀ c ∈ keep_cols, c ∈ df.columns) :
    selectRename df =
      Except.ok { columns := breed_columns
                  rows := df.rows.map (fun r =>
                    renameMap.map (fun p => (p.2, getCell r p.1))) } := by
  unfold selectRename
  rw [if_pos h]
  rfl

/-- Claim C2: for every upstream payload — empty, or with records missing
arbitrary keys (nested ones included) — `load_breeds` returns a table whose
columns are exactly the ten schema fields and in which every row defines
all ten fields (absent source data as the explicit missing value), with no
key error. -/
theorem load_breeds_schema_stability (data : List (List (String × Json))) :
    (load_breeds_pure data).map DataFrame.columns = Except.ok breed_columns ∧
    (load_breeds_pure data).map
        (fun t => t.rows.all fun r => breed_columns.all fun c => (r.lookup c).isSome) =
      Except.ok true := by
  have hok := selectRename_ok (addAllMissing (json_normalize data))
    (fun c hc => mem_addAllMissing (json_normalize data) c hc)
  unfold load_breeds_pure
  rw [hok]
  constructor
  · rfl
  · simp only [Except.map]
    refine congrArg Except.ok ?_
    rw [List.all_map]
    apply List.all_eq_true.mpr
    intro r _
    rfl

/-! ### Claim C8 — the Name column carries no guarantee the upstream did
not give.  The loader copies whatever (if anything) the payload has under
the top-level `name` key; the lemmas below trace one record through
`json_normalize`'s flattening. -/

/-- Folding `all` over a `map` between different types tests the composite. -/
theorem all_map_hetero {α β : Type} (f : α → β) (p : β → Bool) :
    ∀ l : List α, (l.map f).all p = l.all (fun a => p (f a)) := by
  intro l
  induction l with
  | nil => rfl
  | cons a t ih => simp [List.all_cons, ih]

/-- Looking a key up in a concatenation: a hit in the left part wins. -/
theorem lookup_append_some {β : Type} {a : String} {v : β} :
    ∀ {l1 l2 : List (String × β)},
      l1.lookup a = some v → (l1 ++ l2).lookup a = some v := by
  intro l1 l2
  induction l1 with
  | nil => intro h; simp [List.lookup] at h
  | cons kv t ih =>
    intro h
    obtain ⟨k, w⟩ := kv
    rw [List.cons_append]
    cases hb : (a == k)
    · simp only [List.lookup, hb] at h ⊢
      exact ih h
    · simp only [List.lookup, hb] at h ⊢
      exact h

/-- Looking a key up in a concatenation: a miss in the left part defers. -/
theorem lookup_append_none {β : Type} {a : String} :
    ∀ {l1 l2 : List (String × β)},
      l1.lookup a = Option.none → (l1 ++ l2).lookup a = l2.lookup a := by
  intro l1 l2
  induction l1 with
  | nil => intro _; rfl
  | cons kv t ih =>
    intro h
    obtain ⟨k, w⟩ := kv
    rw [List.cons_append]
    cases hb : (a == k)
    · simp only [List.lookup, hb] at h ⊢
      exact ih h
    · simp only [List.lookup, hb] at h
      exact absurd h (by simp)

/-- A lookup over keys that all differ from `a` misses. -/
theorem lookup_eq_none_of_keys_ne {β : Type} (a : String) :
    ∀ l : List (String × β), (∀ p ∈ l, p.1 ≠ a) → l.lookup a = Option.none := by
  intro l
  induction l with
  | nil => intro _; rfl
  | cons kv t ih =>
    intro h
    obtain ⟨k, w⟩ := kv
    have hk : k ≠ a := h (k, w) (List.mem_cons_self _ _)
    have hb : (a == k) = false := beq_eq_false_iff_ne.mpr (Ne.symm hk)
    simp only [List.lookup, hb]
    exact ih (fun p hp => h p (List.mem_cons_of_mem _ hp))

/-- Every key `json_normalize` produces under a prefix starts with that
prefix (fuel-indexed induction over the mutual flattening). -/
theorem flatten_key_prefix_aux :
    ∀ n : Nat,
      (∀ (pre k : String) (v : Json), sizeOf v ≤ n →
        ∀ p ∈ flattenEntry pre k v, ∃ suf, p.1 = pre ++ suf) ∧
      (∀ (pre : String) (l : List (String × Json)), sizeOf l ≤ n →
        ∀ p ∈ flattenFields pre l, ∃ suf, p.1 = pre ++ suf) := by
  intro n
  induction n with
  | zero =>
    constructor
    · intro pre k v hv p hp
      cases v <;>
        simp only [Json.null.sizeOf_spec, Json.str.sizeOf_spec, Json.num.sizeOf_spec,
          Json.bool.sizeOf_spec, Json.arr.sizeOf_spec, Json.obj.sizeOf_spec] at hv <;>
        omega
    · intro pre l hl p hp
      cases l with
      | nil => simp [flattenFields] at hp
      | cons kv rest =>
        simp only [List.cons.sizeOf_spec] at hl
        omega
  | succ n ih =>
    constructor
    · intro pre k v hv p hp
      cases v with
      | obj fs =>
        simp only [flattenEntry] at hp
        simp only [Json.obj.sizeOf_spec] at hv
        obtain ⟨suf, hsuf⟩ := ih.2 (pre ++ k ++ ".") fs (by omega) p hp
        refine ⟨k ++ "." ++ suf, ?_⟩
        rw [hsuf]
        simp [String.append_assoc]
      | null =>
        simp only [flattenEntry, List.mem_singleton] at hp
        subst hp
        exact ⟨k, rfl⟩
      | str s =>
        simp only [flattenEntry, List.mem_singleton] at hp
        subst hp
        exact ⟨k, rfl⟩
      | num m =>
        simp only [flattenEntry, List.mem_singleton] at hp
        subst hp
        exact ⟨k, rfl⟩
      | bool b =>
        simp only [flattenEntry, List.mem_singleton] at hp
        subst hp
        exact ⟨k, rfl⟩
      | arr xs =>
        simp only [flattenEntry, List.mem_singleton] at hp
        subst hp
        exact ⟨k, rfl⟩
    · intro pre l hl p hp
      cases l with
      | nil => simp [flattenFields] at hp
      | cons kv rest =>
        obtain ⟨k, v⟩ := kv
        simp only [flattenFields, List.mem_append] at hp
        simp only [List.cons.sizeOf_spec, Prod.mk.sizeOf_spec] at hl
        rcases hp with hp | hp
        · exact ih.1 pre k v (by omega) p hp
        · exact ih.2 pre rest (by omega) p hp

/-- Every key `json_normalize` produces under a prefix starts with it. -/
theorem flattenFields_keys_prefixed (pre : String) (l : List (String × Json)) :
    ∀ p ∈ flattenFields pre l, ∃ suf, p.1 = pre ++ suf :=
  (flatten_key_prefix_aux (sizeOf l)).2 pre l (Nat.le_refl _)

/-- A dotted key (as produced for a nested object) is never `"name"`. -/
theorem dotted_key_ne_name (q k suf : String) : ((q ++ k ++ ".") ++ suf) ≠ "name" := by
  intro h
  have hdot : ('.' : Char) ∈ ".".data := by decide
  have hmem : ('.' : Char) ∈ "name".data := by
    rw [← h, String.data_append, String.data_append]
    exact List.mem_append.mpr (Or.inl (List.mem_append.mpr (Or.inr hdot)))
  have hno : ('.' : Char) ∉ "name".data := by decide
  exact hno hmem

/-- A flattened entry under a key other than `name` never produces the
flat key `name` (nested objects only produce dotted keys). -/
theorem flattenEntry_lookup_name_ne (k : String) (v : Json) (hk : k ≠ "name") :
    (flattenEntry "" k v).lookup "name" = Option.none := by
  have hek : ("" : String) ++ k = k := by simp
  have hb : (("name" : String) == "" ++ k) = false := by
    rw [hek]
    exact beq_eq_false_iff_ne.mpr (Ne.symm hk)
  cases v with
  | obj fs =>
    apply lookup_eq_none_of_keys_ne
    intro p hp
    simp only [flattenEntry] at hp
    obtain ⟨suf, hsuf⟩ := flattenFields_keys_prefixed ("" ++ k ++ ".") fs p hp
    rw [hsuf]
    exact dotted_key_ne_name "" k suf
  | null => simp only [flattenEntry, List.lookup, hb]
  | str s => simp only [flattenEntry, List.lookup, hb]
  | num m => simp only [flattenEntry, List.lookup, hb]
  | bool b => simp only [flattenEntry, List.lookup, hb]
  | arr xs => simp only [flattenEntry, List.lookup, hb]

/-- A record whose (first) top-level `name` entry is the JSON string `s`
flattens to a row whose `name` cell is the string `s`. -/
theorem flatten_lookup_name :
    ∀ (l : List (String × Json)) (s : String),
      l.lookup "name" = some (Json.str s) →
      (flattenFields "" l).lookup "name" = some (PyVal.str s) := by
  intro l
  induction l with
  | nil => intro s h; simp [List.lookup] at h
  | cons kv rest ih =>
    obtain ⟨k, v⟩ := kv
    intro s h
    by_cases hk : ("name" : String) = k
    · subst hk
      have hb : (("name" : String) == "name") = true := by simp
      simp only [List.lookup, hb, Option.some.injEq] at h
      subst h
      simp only [flattenFields, flattenEntry]
      have he : ("" : String) ++ "name" = "name" := rfl
      rw [he, List.singleton_append]
      simp [List.lookup]
    · have hb : (("name" : String) == k) = false := beq_eq_false_iff_ne.mpr hk
      simp only [List.lookup, hb] at h
      simp only [flattenFields]
      rw [lookup_append_none (flattenEntry_lookup_name_ne k v (Ne.symm hk))]
      exact ih s h

/-- Appending cells keeps a good `name` cell good. -/
theorem nameGoodRow_append (r ext : Row) (h : nameGoodRow r = true) :
    nameGoodRow (r ++ ext) = true := by
  unfold nameGoodRow getCell at h ⊢
  cases hl : r.lookup "name" with
  | none =>
    rw [hl] at h
    simp [goodNameVal] at h
  | some v =>
    rw [hl] at h
    rw [lookup_append_some hl]
    exact h

/-- The fill step preserves good `name` cells on every row. -/
theorem all_nameGoodRow_addMissing (df : DataFrame) (c : String)
    (h : df.rows.all nameGoodRow = true) :
    (addMissing df c).rows.all nameGoodRow = true := by
  unfold addMissing
  split
  · exact h
  · rw [List.all_map]
    rw [List.all_eq_true] at h ⊢
    intro r hr
    exact nameGoodRow_append _ _ (h r hr)

/-- The whole fill loop preserves good `name` cells on every row. -/
theorem all_nameGoodRow_addAllMissing :
    ∀ (cols : List String) (df : DataFrame), df.rows.all nameGoodRow = true →
      (cols.foldl addMissing df).rows.all nameGoodRow = true := by
  intro cols
  induction cols with
  | nil => intro df h; simpa using h
  | cons c cs ih => intro df h; exact ih _ (all_nameGoodRow_addMissing df c h)

/-- Renaming turns a good `name` cell into a good `Name` cell. -/
theorem nameIsNonemptyStr_renamed (r : Row) :
    nameIsNonemptyStr (renameMap.map (fun p => (p.2, getCell r p.1))) = nameGoodRow r := rfl

/-- Claim C8 counterexample: the payload with one record carrying no keys
at all loads fine, but its single row's `Name` is the missing value, not a
non-empty string. -/
theorem load_breeds_name_counterexample :
    (load_breeds_pure [[]]).map (fun t => t.rows.length) = Except.ok 1 ∧
    (load_breeds_pure [[]]).map (fun t => t.rows.all nameIsNonemptyStr) = Except.ok false :=
  ⟨rfl, rfl⟩

/-- Claim C8 (amended): when every upstream record carries a top-level
`name` key whose first value is a non-empty JSON string, every record of
the loaded table has a non-empty string `Name`.  (The loader itself
validates nothing: it copies what the upstream gives, as the
counterexample shows.) -/
theorem load_breeds_name_nonempty_of_upstream (data : List (List (String × Json)))
    (h : data.all recNameGood = true) :
    (load_breeds_pure data).map (fun t => t.rows.all nameIsNonemptyStr) = Except.ok true := by
  have hok := selectRename_ok (addAllMissing (json_normalize data))
    (fun c hc => mem_addAllMissing (json_normalize data) c hc)
  unfold load_breeds_pure
  rw [hok]
  simp only [Except.map]
  refine congrArg Except.ok ?_
  rw [List.all_map]
  have hstart : (json_normalize data).rows.all nameGoodRow = true := by
    have hrows : (json_normalize data).rows = data.map (flattenFields "") := rfl
    rw [hrows, all_map_hetero]
    rw [List.all_eq_true] at h ⊢
    intro rec hrec
    have hr := h rec hrec
    unfold recNameGood at hr
    cases hl : rec.lookup "name" with
    | none =>
      rw [hl] at hr
      simp at hr
    | some j =>
      rw [hl] at hr
      cases j with
      | str s =>
        show nameGoodRow (flattenFields "" rec) = true
        unfold nameGoodRow getCell
        rw [flatten_lookup_name rec s hl]
        exact hr
      | null => simp at hr
      | num m => simp at hr
      | bool b => simp at hr
      | arr xs => simp at hr
      | obj fs => simp at hr
  have hmid : (addAllMissing (json_normalize data)).rows.all nameGoodRow = true :=
    all_nameGoodRow_addAllMissing keep_cols (json_normalize data) hstart
  rw [List.all_eq_true] at hmid ⊢
  intro r hr
  show nameIsNonemptyStr (renameMap.map fun p => (p.2, getCell r p.1)) = true
  rw [nameIsNonemptyStr_renamed]
  exact hmid r hr

/-- Claim C8 witness: a payload whose single record names `"Husky"` loads
to a table where every `Name` is a non-empty string. -/
theorem load_breeds_name_nonempty_of_upstream_witness :
    (load_breeds_pure [[("name", Json.str "Husky")]]).map
        (fun t => t.rows.all nameIsNonemptyStr) =
      Except.ok true :=
  load_breeds_name_nonempty_of_upstream [[("name", Json.str "Husky")]] (by decide)

end DogApp
